import Mathlib

/-!
# Verification of the `rust-directory-lister` entry pipeline

Shallow embedding of `src/main.rs`: the `Entry` record, `collect_entries`,
`should_display`, `sort_entries`, `format_entries`, `format_size`,
`parse_attributes`, and the per-path loop of `main`.

Modelling conventions:
* `SystemTime` values are modelled as `Nat` (monotonically comparable stamps).
* Fallible operations (`metadata()`, `modified()`) are `Except String _`;
  the `?` operator is explicit propagation of `Except.error`.
* Rust compiles exactly one of the `#[cfg(target_os = ...)]` blocks per
  target.  We embed this by passing the `target_os` string as a parameter
  and reproducing each `cfg` condition as an equality test on that string.
  (On real POSIX targets `target_os` is `"linux"`, `"macos"`, `"freebsd"`,
  etc. — the value `"unix"` is not a valid `target_os`; the Rust idiom for
  matching any POSIX system is `#[cfg(unix)]`.)
* Rust's `Vec::sort_by` is a stable sort driven by a total preorder
  comparator.  The output of a stable sort is uniquely determined by the
  comparator (sorted + stable + permutation), so we embed it as
  `List.insertionSort`, which is stable and structurally recursive (hence
  kernel-computable).
* `chrono`'s local-time rendering `DateTime<Local>.format("%b %d %H:%M")`
  depends on the ambient timezone database; it is passed in as an opaque
  rendering function `fmtTime : Nat → String`.
* Rust `{:.1}` float formatting of `bytes / 1024^k`: for `bytes < 2^53`
  both the `u64 → f64` conversion and the division by a power of two are
  exact, and Rust then rounds the exact value half-to-even to one decimal
  digit.  `fmtOneDecimal` performs that exact rational rounding in `Nat`
  arithmetic.
-/

namespace DirLister

open scoped List

/-- The command-line options of `struct Arg` in `main.rs` (minus `paths`,
which the per-path loop receives separately). -/
structure Arg where
  all : Bool
  recursive : Bool
  sort_by_time : Bool
  reverse : Bool
  sort_by_size : Bool
  long_format : Bool
  human_readable : Bool
deriving DecidableEq, Repr

/-- `struct Entry` in `main.rs`: one normalized directory entry.  The
source field `attribute` is a Lean keyword, so it is named `attr` here. -/
structure Entry where
  name : String
  modified : Nat
  size : Nat
  attr : Nat
deriving DecidableEq, Repr

deriving instance DecidableEq for Except

/-- The fields of `std::fs::Metadata` that `collect_entries` reads.
`modified` is fallible (`Metadata::modified()` returns `io::Result`). -/
structure MetaData where
  mode : Nat
  fileAttributes : Nat
  modified : Except String Nat
  len : Nat
deriving DecidableEq, Repr

/-- One item yielded by the `walkdir` iterator: either a directory entry
(whose own `metadata()` call may still fail), or an iteration error. -/
inductive WalkItem where
  | ok (path fileName : String) (isDir : Bool) (metadata : Except String MetaData)
  | err (msg : String)
deriving DecidableEq, Repr

/-- `collect_entries` in `main.rs` (lines 82–139).  Returns the warnings
printed to stderr (for `Err` items of the walker) and either the collected
entry list or the error that `?` propagated out of the loop.  Note that a
failed `metadata()` or `modified()` call aborts the whole loop via `?`,
while a walker `Err` item only prints a warning and continues. -/
def collect_entries (targetOs : String) : List WalkItem → List String × Except String (List Entry)
  | [] => ([], Except.ok [])
  | WalkItem.err msg :: rest =>
      let r := collect_entries targetOs rest
      (("Warning: " ++ msg) :: r.1, r.2)
  | WalkItem.ok path fileName isDir md :: rest =>
      match md with
      | Except.error _ => ([], Except.error ("Failed to read metadata for " ++ path))
      | Except.ok meta =>
          match meta.modified with
          | Except.error _ =>
              ([], Except.error ("Failed to get modified time for " ++ path))
          | Except.ok t =>
              let attr : Nat :=
                if targetOs = "unix" then meta.mode
                else if targetOs = "windows" then meta.fileAttributes
                else 0
              let e : Entry :=
                { name := if isDir then fileName ++ "/" else fileName
                  modified := t
                  size := meta.len
                  attr := attr }
              let r := collect_entries targetOs rest
              (r.1, r.2.map fun es => e :: es)

/-- `should_display` in `main.rs` (lines 142–162): the visibility filter.
`is_hidden` comes from the `#[cfg(target_os = "windows")]` pair of
bindings. -/
def should_display (targetOs : String) (entries : List Entry) (arg : Arg) : List Entry :=
  if arg.all then entries
  else
    entries.filter fun entry =>
      let is_dot_file := entry.name.startsWith "."
      let is_hidden := if targetOs = "windows" then (entry.attr &&& 0x2) != 0 else false
      !is_dot_file && !is_hidden

/-- Comparator of `entries.sort_by(|a, b| a.modified.cmp(&b.modified))`. -/
def timeLe (a b : Entry) : Prop := a.modified ≤ b.modified

/-- Comparator of `entries.sort_by(|a, b| a.size.cmp(&b.size))`. -/
def sizeLe (a b : Entry) : Prop := a.size ≤ b.size

/-- Rust `str::to_lowercase`, embedded as a per-character map (exactly the
Rust behavior on ASCII, where the lowercase mapping is one-to-one). -/
def to_lowercase (s : String) : String := String.mk (s.data.map Char.toLower)

/-- Comparator of
`entries.sort_by(|a, b| a.name.to_lowercase().cmp(&b.name.to_lowercase()))`.
Rust's `String` order is byte-wise lexicographic, which on valid UTF-8 is
code-point lexicographic; we compare the character lists of the lowered
strings under the lexicographic order of `List Char`. -/
def nameLe (a b : Entry) : Prop := (to_lowercase a.name).data ≤ (to_lowercase b.name).data

instance : DecidableRel timeLe := fun a b => inferInstanceAs (Decidable (a.modified ≤ b.modified))

instance : DecidableRel sizeLe := fun a b => inferInstanceAs (Decidable (a.size ≤ b.size))

instance : DecidableRel nameLe :=
  fun a b => inferInstanceAs (Decidable ((to_lowercase a.name).data ≤ (to_lowercase b.name).data))

instance : IsTotal Entry timeLe := ⟨fun a b => Nat.le_total a.modified b.modified⟩

instance : IsTrans Entry timeLe := ⟨fun _ _ _ h h' => Nat.le_trans h h'⟩

instance : IsTotal Entry sizeLe := ⟨fun a b => Nat.le_total a.size b.size⟩

instance : IsTrans Entry sizeLe := ⟨fun _ _ _ h h' => Nat.le_trans h h'⟩

instance : IsTotal Entry nameLe :=
  ⟨fun a b => le_total (to_lowercase a.name).data (to_lowercase b.name).data⟩

instance : IsTrans Entry nameLe := ⟨fun _ _ _ h h' => le_trans h h'⟩

/-- `sort_entries` in `main.rs` (lines 165–184).  A stable ascending sort
by the active key, followed by `entries.reverse()` exactly when the code
reverses: for time/size when `!arg.reverse`, for name when `arg.reverse`. -/
def sort_entries (entries : List Entry) (arg : Arg) : List Entry :=
  if arg.sort_by_time then
    let s := entries.insertionSort timeLe
    if !arg.reverse then s.reverse else s
  else if arg.sort_by_size then
    let s := entries.insertionSort sizeLe
    if !arg.reverse then s.reverse else s
  else
    let s := entries.insertionSort nameLe
    if arg.reverse then s.reverse else s

/-- Rust `format!("{:<W}", s)`: left-justify `s` in a field of width `W`
(width counted in characters, padding with spaces). -/
def padRight (s : String) (w : Nat) : String :=
  s ++ String.mk (List.replicate (w - s.length) ' ')

/-- Rust `format!("{:>W}", s)`: right-justify `s` in a field of width `W`. -/
def padLeft (s : String) (w : Nat) : String :=
  String.mk (List.replicate (w - s.length) ' ') ++ s

/-- Exact rendering of Rust `format!("{:.1}", num as f64 / den as f64)`
for `num < 2^53` and `den` a power of two: the quotient is exact in `f64`
and is rounded half-to-even to one decimal digit. -/
def fmtOneDecimal (num den : Nat) : String :=
  let t := num * 10
  let q := t / den
  let r := t % den
  let rounded :=
    if 2 * r < den then q
    else if den < 2 * r then q + 1
    else if q % 2 = 0 then q else q + 1
  toString (rounded / 10) ++ "." ++ toString (rounded % 10)

/-- `const KB: u64 = 1024`. -/
def KB : Nat := 1024

/-- `const MB: u64 = KB * 1024`. -/
def MB : Nat := KB * 1024

/-- `const GB: u64 = MB * 1024`. -/
def GB : Nat := MB * 1024

/-- `format_size` in `main.rs` (lines 217–231). -/
def format_size (bytes : Nat) : String :=
  if bytes ≥ GB then fmtOneDecimal bytes GB ++ "G"
  else if bytes ≥ MB then fmtOneDecimal bytes MB ++ "M"
  else if bytes ≥ KB then fmtOneDecimal bytes KB ++ "K"
  else toString bytes ++ "B"

/-- `parse_attributes` in `main.rs` (lines 232–267), with the three
`#[cfg]` blocks embedded as tests on the `target_os` string.  The unix
branch renders `format!("{:o}", attr & 0o777)` — octal digits with no
zero-padding (`Nat.toDigits 8`). -/
def parse_attributes (targetOs : String) (attr : Nat) : String :=
  if targetOs = "windows" then
    let attributes :=
      (if (attr &&& 0x1) != 0 then ["READONLY"] else []) ++
      (if (attr &&& 0x2) != 0 then ["HIDDEN"] else []) ++
      (if (attr &&& 0x4) != 0 then ["SYSTEM"] else []) ++
      (if (attr &&& 0x20) != 0 then ["ARCHIVE"] else [])
    if attributes.isEmpty then "NORMAL" else String.intercalate ", " attributes
  else if targetOs = "unix" then
    String.mk (Nat.toDigits 8 (attr &&& 0o777))
  else "UNKNOWN"

/-- The closure mapped over entries in `format_entries` (lines 189–210).
`fmtTime` stands for `chrono`'s local-time `"%b %d %H:%M"` rendering. -/
def format_one (targetOs : String) (fmtTime : Nat → String) (arg : Arg) (f : Entry) : String :=
  if arg.long_format then
    let size_display := if arg.human_readable then format_size f.size else toString f.size ++ "B"
    let attributes := parse_attributes targetOs f.attr
    padRight f.name 20 ++ "  " ++ padLeft size_display 10 ++ " size  modified: " ++
      padRight (fmtTime f.modified) 15 ++ " attributes: " ++ attributes
  else
    f.name

/-- `format_entries` in `main.rs` (lines 187–214): a pure `map`. -/
def format_entries (targetOs : String) (entries : List Entry) (arg : Arg)
    (fmtTime : Nat → String) : List String :=
  entries.map (format_one targetOs fmtTime arg)

/-- What one run of `main` produced: the stdout lines, the stderr warning
lines, and `main`'s `Result`. -/
structure RunOutput where
  stdout : List String
  stderr : List String
  result : Except String Unit
deriving DecidableEq, Repr

/-- The `for path in paths.iter()` loop of `main` (lines 59–69), over a
list of requested paths paired with the walker items the filesystem yields
for each.  Each iteration prints the `"{path}:"` header, collects, and on
a collect error the `?` (after `with_context`) returns from `main` at
once; otherwise it prints the joined formatted entries and a blank line
and moves to the next path. -/
def main_loop (targetOs : String) (fmtTime : Nat → String) (arg : Arg) :
    List (String × List WalkItem) → RunOutput
  | [] => ⟨[], [], Except.ok ()⟩
  | (path, items) :: rest =>
      let header := path ++ ":"
      let c := collect_entries targetOs items
      match c.2 with
      | Except.error _ =>
          ⟨[header], c.1, Except.error ("Failed to read directory: " ++ path)⟩
      | Except.ok entries =>
          let display_entries := should_display targetOs entries arg
          let sorted_entries := sort_entries display_entries arg
          let formatted_entries := format_entries targetOs sorted_entries arg fmtTime
          let separator := if arg.long_format then "\n" else " "
          let line := String.intercalate separator formatted_entries
          let r := main_loop targetOs fmtTime arg rest
          ⟨header :: line :: "" :: r.stdout, c.1 ++ r.stderr, r.result⟩

/-- `main` (lines 49–79): the non-empty-paths branch runs `main_loop`;
with no paths it lists the current directory (items `cwd`) without a
header or trailing blank line. -/
def main_run (targetOs : String) (fmtTime : Nat → String) (arg : Arg)
    (paths : List (String × List WalkItem)) (cwd : List WalkItem) : RunOutput :=
  if paths.isEmpty then
    let c := collect_entries targetOs cwd
    match c.2 with
    | Except.error _ => ⟨[], c.1, Except.error "failed to read current directory"⟩
    | Except.ok entries =>
        let display_entries := should_display targetOs entries arg
        let sorted_entries := sort_entries display_entries arg
        let formatted_entries := format_entries targetOs sorted_entries arg fmtTime
        let separator := if arg.long_format then "\n" else " "
        ⟨[String.intercalate separator formatted_entries], c.1, Except.ok ()⟩
  else
    main_loop targetOs fmtTime arg paths

/-! ## Helper lemmas -/

/-- `sort_entries` permutes its input, in every configuration. -/
theorem sort_entries_perm (l : List Entry) (arg : Arg) : (sort_entries l arg).Perm l := by
  by_cases ht : arg.sort_by_time
  · by_cases hr : arg.reverse
    · simpa [sort_entries, ht, hr] using List.perm_insertionSort timeLe l
    · simpa [sort_entries, ht, hr] using
        (List.reverse_perm (l.insertionSort timeLe)).trans (List.perm_insertionSort timeLe l)
  · by_cases hs : arg.sort_by_size
    · by_cases hr : arg.reverse
      · simpa [sort_entries, ht, hs, hr] using List.perm_insertionSort sizeLe l
      · simpa [sort_entries, ht, hs, hr] using
          (List.reverse_perm (l.insertionSort sizeLe)).trans (List.perm_insertionSort sizeLe l)
    · by_cases hr : arg.reverse
      · simpa [sort_entries, ht, hs, hr] using
          (List.reverse_perm (l.insertionSort nameLe)).trans (List.perm_insertionSort nameLe l)
      · simpa [sort_entries, ht, hs, hr] using List.perm_insertionSort nameLe l

/-! ## Claims -/

/-- **C10.** For every input entry list and every combination of the
`sort_by_time`, `sort_by_size`, and `reverse` flags, the output of
`sort_entries` is a permutation of its input: every `Entry` record of the
input appears in the output with the same multiplicity, and no new entry
is introduced. -/
theorem C10_sort_permutation (l : List Entry) (arg : Arg) :
    (sort_entries l arg).Perm l ∧
    ∀ e : Entry, (sort_entries l arg).count e = l.count e := by
  exact ⟨sort_entries_perm l arg, fun e => (sort_entries_perm l arg).count_eq e⟩

/-- **C8.** For every entry list and every combination of sort and format
options, composing the sorter and the formatter after the visibility
filter yields exactly as many formatted strings as there are entries
surviving the filter stage. -/
theorem C8_pipeline_count (os : String) (ft : Nat → String) (arg : Arg) (l : List Entry) :
    (format_entries os (sort_entries (should_display os l arg) arg) arg ft).length
      = (should_display os l arg).length := by
  simp [format_entries, (sort_entries_perm (should_display os l arg) arg).length_eq]

/-- **C7.** `format_size` scales a byte count to the largest power-of-1024
unit where the value is at least 1 (unit letter changing exactly at the
`1024`, `1024²`, `1024³` boundaries), rendering values below 1024 as an
integer with suffix `B`; in particular `format_size 500 = "500B"`,
`format_size 2048 = "2.0K"`, `format_size (5·1024²) = "5.0M"`, and
`format_size (3·1024³) = "3.0G"`. -/
theorem C7_format_size :
    format_size 500 = "500B" ∧
    format_size 2048 = "2.0K" ∧
    format_size (5 * 1024 ^ 2) = "5.0M" ∧
    format_size (3 * 1024 ^ 3) = "3.0G" ∧
    format_size 1023 = "1023B" ∧
    format_size 1024 = "1.0K" ∧
    format_size (1024 ^ 2 - 1) = "1024.0K" ∧
    format_size (1024 ^ 2) = "1.0M" ∧
    format_size (1024 ^ 3 - 1) = "1024.0M" ∧
    format_size (1024 ^ 3) = "1.0G" ∧
    (∀ b : Nat, b < 1024 → format_size b = toString b ++ "B") ∧
    (∀ b : Nat, 1024 ≤ b → b < 1024 ^ 2 → ∃ s, format_size b = s ++ "K") ∧
    (∀ b : Nat, 1024 ^ 2 ≤ b → b < 1024 ^ 3 → ∃ s, format_size b = s ++ "M") ∧
    (∀ b : Nat, 1024 ^ 3 ≤ b → ∃ s, format_size b = s ++ "G") := by
  refine ⟨by decide, by decide, by decide, by decide, by decide, by decide, by decide,
    by decide, by decide, by decide, ?_, ?_, ?_, ?_⟩
  · intro b hb
    have h1 : ¬ b ≥ GB := by simp only [GB, MB, KB]; omega
    have h2 : ¬ b ≥ MB := by simp only [MB, KB]; omega
    have h3 : ¬ b ≥ KB := by simp only [KB]; omega
    simp [format_size, h1, h2, h3]
  · intro b hb hb'
    have h1 : ¬ b ≥ GB := by simp only [GB, MB, KB]; omega
    have h2 : ¬ b ≥ MB := by simp only [MB, KB]; omega
    have h3 : b ≥ KB := by simp only [KB]; omega
    exact ⟨fmtOneDecimal b KB, by simp [format_size, h1, h2, h3]⟩
  · intro b hb hb'
    have h1 : ¬ b ≥ GB := by simp only [GB, MB, KB]; omega
    have h2 : b ≥ MB := by simp only [MB, KB]; omega
    exact ⟨fmtOneDecimal b MB, by simp [format_size, h1, h2]⟩
  · intro b hb
    have h1 : b ≥ GB := by simp only [GB, MB, KB]; omega
    exact ⟨fmtOneDecimal b GB, by simp [format_size, h1]⟩

/-- Witness for `C7_format_size`: the unit-selection clauses applied at
concrete byte counts. -/
theorem C7_format_size_witness :
    format_size 512 = "512" ++ "B" ∧
    (∃ s, format_size 2048 = s ++ "K") ∧
    (∃ s, format_size (5 * 1024 ^ 2) = s ++ "M") ∧
    (∃ s, format_size (4 * 1024 ^ 3) = s ++ "G") := by
  obtain ⟨-, -, -, -, -, -, -, -, -, -, hB, hK, hM, hG⟩ := C7_format_size
  exact ⟨hB 512 (by decide), hK 2048 (by decide) (by decide),
    hM (5 * 1024 ^ 2) (by decide) (by decide), hG (4 * 1024 ^ 3) (by decide)⟩

/-- **C4** (code bug).  The claim says that on POSIX systems every
constructed `Entry` carries the permission mode bits and that the
attribute summary renders them as a 3-digit octal string.  The code's
`#[cfg(target_os = "unix")]` never matches a real POSIX target (valid
`target_os` values are `"linux"`, `"macos"`, `"freebsd"`, …; the idiom
for "any POSIX" is `#[cfg(unix)]`), so on e.g. Linux the fallback branch
runs: the entry's attribute is `0` and the summary is `"UNKNOWN"`.
Moreover, even the (dead) unix branch uses `format!("{:o}", attr & 0o777)`
with no zero-padding, so mode `0o007` would render as `"7"`, not
`"007"`. -/
theorem C4_attr_code_behavior :
    (collect_entries "linux"
        [WalkItem.ok "d/f" "f" false (Except.ok ⟨0o644, 0, Except.ok 7, 9⟩)]).2
      = Except.ok [{ name := "f", modified := 7, size := 9, attr := 0 }] ∧
    parse_attributes "linux" 0o644 = "UNKNOWN" ∧
    parse_attributes "unix" 0o644 = "644" ∧
    parse_attributes "unix" 0o007 = "7" := by
  decide

/-- **C6** (counterexample).  The claim asserts sort stability for every
reverse setting; but with `sort_by_time` and `reverse = false` the code
reverses the stably-sorted list, so two entries tied on `modified` come
out in reversed input order. -/
theorem C6_counterexample :
    sort_entries [⟨"a", 5, 1, 0⟩, ⟨"b", 5, 2, 0⟩]
        ⟨false, false, true, false, false, false, false⟩
      = [⟨"b", 5, 2, 0⟩, ⟨"a", 5, 1, 0⟩] := by
  decide

/-- **C6** (amended).  Ties under the active primary key keep their input
order exactly in the configurations where the code does not reverse the
sorted list — time or size sort with `reverse = true`, name sort with
`reverse = false`; in the other three configurations tied entries appear
in reversed input order. -/
theorem C6_stability_amended (l : List Entry) (a b : Entry) (hab : [a, b] <+ l) :
    (a.modified = b.modified →
      [a, b] <+ sort_entries l ⟨false, false, true, true, false, false, false⟩ ∧
      [b, a] <+ sort_entries l ⟨false, false, true, false, false, false, false⟩) ∧
    (a.size = b.size →
      [a, b] <+ sort_entries l ⟨false, false, false, true, true, false, false⟩ ∧
      [b, a] <+ sort_entries l ⟨false, false, false, false, true, false, false⟩) ∧
    (to_lowercase a.name = to_lowercase b.name →
      [a, b] <+ sort_entries l ⟨false, false, false, false, false, false, false⟩ ∧
      [b, a] <+ sort_entries l ⟨false, false, false, true, false, false, false⟩) := by
  refine ⟨fun hm => ?_, fun hs => ?_, fun hn => ?_⟩
  · have h1 : [a, b] <+ l.insertionSort timeLe :=
      List.pair_sublist_insertionSort (show timeLe a b from le_of_eq hm) hab
    constructor
    · simpa [sort_entries] using h1
    · have h2 := h1.reverse
      simpa [sort_entries] using h2
  · have h1 : [a, b] <+ l.insertionSort sizeLe :=
      List.pair_sublist_insertionSort (show sizeLe a b from le_of_eq hs) hab
    constructor
    · simpa [sort_entries] using h1
    · have h2 := h1.reverse
      simpa [sort_entries] using h2
  · have h1 : [a, b] <+ l.insertionSort nameLe :=
      List.pair_sublist_insertionSort (show nameLe a b from le_of_eq (by rw [hn])) hab
    constructor
    · simpa [sort_entries] using h1
    · have h2 := h1.reverse
      simpa [sort_entries] using h2

/-- Witness for `C6_stability_amended`: two entries tied on time, size and
lowercased name at once. -/
theorem C6_stability_amended_witness :
    ([⟨"X", 5, 7, 0⟩, ⟨"x", 5, 7, 1⟩] <+
      sort_entries [⟨"X", 5, 7, 0⟩, ⟨"x", 5, 7, 1⟩]
        ⟨false, false, true, true, false, false, false⟩) ∧
    ([⟨"x", 5, 7, 1⟩, ⟨"X", 5, 7, 0⟩] <+
      sort_entries [⟨"X", 5, 7, 0⟩, ⟨"x", 5, 7, 1⟩]
        ⟨false, false, true, false, false, false, false⟩) ∧
    ([⟨"X", 5, 7, 0⟩, ⟨"x", 5, 7, 1⟩] <+
      sort_entries [⟨"X", 5, 7, 0⟩, ⟨"x", 5, 7, 1⟩]
        ⟨false, false, false, false, false, false, false⟩) := by
  have h := C6_stability_amended [⟨"X", 5, 7, 0⟩, ⟨"x", 5, 7, 1⟩]
    ⟨"X", 5, 7, 0⟩ ⟨"x", 5, 7, 1⟩ (List.Sublist.refl _)
  exact ⟨(h.1 rfl).1, (h.1 rfl).2, (h.2.2 (by decide)).1⟩

/-- If the comparator `r` is `≤` on a key and the input has pairwise
distinct keys, the insertion sort is strictly ascending in the key. -/
theorem insertionSort_pairwise_lt {β : Type} [LinearOrder β] (key : Entry → β)
    (r : Entry → Entry → Prop) [DecidableRel r] [IsTotal Entry r] [IsTrans Entry r]
    (hr : ∀ a b, r a b ↔ key a ≤ key b) (l : List Entry)
    (hd : l.Pairwise fun a b => key a ≠ key b) :
    (l.insertionSort r).Pairwise fun a b => key a < key b := by
  have hs : (l.insertionSort r).Pairwise r := List.sorted_insertionSort r l
  have hle : (l.insertionSort r).Pairwise fun a b => key a ≤ key b :=
    hs.imp fun {a b} h => (hr a b).1 h
  have hne : (l.insertionSort r).Pairwise fun a b => key a ≠ key b :=
    ((List.perm_insertionSort r l).pairwise_iff fun {x y} h => h.symm).mpr hd
  exact (hle.and hne).imp fun {a b} h => lt_of_le_of_ne h.1 h.2

/-- **C3.** For every entry list with distinct keys: with `reverse = false`,
size sort places the larger size first and time sort places the most
recently modified entry first, while name sort is ascending
(case-insensitive A→Z); `reverse = true` inverts each of the three
orderings independently. -/
theorem C3_sort_directions (l : List Entry)
    (hsize : l.Pairwise fun a b => a.size ≠ b.size)
    (htime : l.Pairwise fun a b => a.modified ≠ b.modified)
    (hname : l.Pairwise fun a b => (to_lowercase a.name).data ≠ (to_lowercase b.name).data) :
    (sort_entries l ⟨false, false, false, false, true, false, false⟩).Pairwise
      (fun a b => b.size < a.size) ∧
    (sort_entries l ⟨false, false, false, true, true, false, false⟩).Pairwise
      (fun a b => a.size < b.size) ∧
    (sort_entries l ⟨false, false, true, false, false, false, false⟩).Pairwise
      (fun a b => b.modified < a.modified) ∧
    (sort_entries l ⟨false, false, true, true, false, false, false⟩).Pairwise
      (fun a b => a.modified < b.modified) ∧
    (sort_entries l ⟨false, false, false, false, false, false, false⟩).Pairwise
      (fun a b => (to_lowercase a.name).data < (to_lowercase b.name).data) ∧
    (sort_entries l ⟨false, false, false, true, false, false, false⟩).Pairwise
      (fun a b => (to_lowercase b.name).data < (to_lowercase a.name).data) := by
  have hS := insertionSort_pairwise_lt (fun e => e.size) sizeLe (fun a b => Iff.rfl) l hsize
  have hT := insertionSort_pairwise_lt (fun e => e.modified) timeLe (fun a b => Iff.rfl) l htime
  have hN := insertionSort_pairwise_lt (fun e => (to_lowercase e.name).data) nameLe
    (fun a b => Iff.rfl) l hname
  refine ⟨?_, ?_, ?_, ?_, ?_, ?_⟩
  · simpa [sort_entries] using List.pairwise_reverse.mpr hS
  · simpa [sort_entries] using hS
  · simpa [sort_entries] using List.pairwise_reverse.mpr hT
  · simpa [sort_entries] using hT
  · simpa [sort_entries] using hN
  · simpa [sort_entries] using List.pairwise_reverse.mpr hN

/-- Witness for `C3_sort_directions`: two entries with distinct sizes,
times, and lowercased names. -/
theorem C3_sort_directions_witness :
    (sort_entries [⟨"b", 1, 10, 0⟩, ⟨"A", 2, 5, 0⟩]
        ⟨false, false, false, false, true, false, false⟩).Pairwise
      (fun a b => b.size < a.size) ∧
    (sort_entries [⟨"b", 1, 10, 0⟩, ⟨"A", 2, 5, 0⟩]
        ⟨false, false, true, false, false, false, false⟩).Pairwise
      (fun a b => b.modified < a.modified) ∧
    (sort_entries [⟨"b", 1, 10, 0⟩, ⟨"A", 2, 5, 0⟩]
        ⟨false, false, false, false, false, false, false⟩).Pairwise
      (fun a b => (to_lowercase a.name).data < (to_lowercase b.name).data) := by
  have h := C3_sort_directions [⟨"b", 1, 10, 0⟩, ⟨"A", 2, 5, 0⟩]
    (by decide) (by decide) (by decide)
  exact ⟨h.1, h.2.2.1, h.2.2.2.2.1⟩

/-- **C5.** With `all = true` the visibility filter is the identity; with
`all = false` its output is exactly the subsequence of input entries whose
name does not begin with `.` (and, on Windows only, whose hidden attribute
bit `0x2` is also clear), preserving the relative order of the surviving
entries (the output is always a sublist of the input). -/
theorem C5_visibility_filter (os : String) (l : List Entry) (argT argF arg : Arg)
    (hT : argT.all = true) (hF : argF.all = false) :
    should_display os l argT = l ∧
    should_display os l argF =
      l.filter (fun e =>
        decide (e.name.startsWith "." = false ∧ (os = "windows" → e.attr &&& 2 = 0))) ∧
    should_display os l arg <+ l := by
  refine ⟨by simp [should_display, hT], ?_, ?_⟩
  · simp only [should_display, hF, Bool.false_eq_true, if_false]
    apply List.filter_congr
    intro e _
    by_cases hw : os = "windows"
    · cases hdot : e.name.startsWith "." <;>
        cases h2 : (e.attr &&& 2).decEq 0 <;>
          simp_all [hw]
    · cases hdot : e.name.startsWith "." <;> simp [hw, hdot]
  · by_cases h : arg.all
    · simp [should_display, h]
    · simp [should_display, h]

/-- Witness for `C5_visibility_filter`: a dotfile and a plain file, with
`all` on and off. -/
theorem C5_visibility_filter_witness :
    should_display "linux" [⟨".h", 0, 0, 0⟩, ⟨"v", 0, 0, 0⟩]
        ⟨true, false, false, false, false, false, false⟩
      = [⟨".h", 0, 0, 0⟩, ⟨"v", 0, 0, 0⟩] ∧
    should_display "linux" [⟨".h", 0, 0, 0⟩, ⟨"v", 0, 0, 0⟩]
        ⟨false, false, false, false, false, false, false⟩
      = List.filter (fun e =>
          decide (e.name.startsWith "." = false ∧ ("linux" = "windows" → e.attr &&& 2 = 0)))
          [⟨".h", 0, 0, 0⟩, ⟨"v", 0, 0, 0⟩] ∧
    should_display "linux" [⟨".h", 0, 0, 0⟩, ⟨"v", 0, 0, 0⟩]
        ⟨false, false, false, false, false, false, false⟩ <+ [⟨".h", 0, 0, 0⟩, ⟨"v", 0, 0, 0⟩] := by
  have h := C5_visibility_filter "linux" [⟨".h", 0, 0, 0⟩, ⟨"v", 0, 0, 0⟩]
    ⟨true, false, false, false, false, false, false⟩
    ⟨false, false, false, false, false, false, false⟩
    ⟨false, false, false, false, false, false, false⟩ rfl rfl
  exact h

/-- **C9.** In compact mode (`long_format = false`) formatting maps every
entry to exactly its `name` (for every `human_readable` setting, which the
compact branch never reads); in long mode with `human_readable = true`
each line contains the entry's human-readable size string as a
substring. -/
theorem C9_format_modes (os : String) (ft : Nat → String) (l : List Entry)
    (argC argL : Arg) (e : Entry) (hC : argC.long_format = false)
    (hL : argL.long_format = true) (hH : argL.human_readable = true) :
    format_entries os l argC ft = l.map (fun f => f.name) ∧
    ∃ p q, format_one os ft argL e = p ++ (format_size e.size ++ q) := by
  constructor
  · simp [format_entries, format_one, hC]
  · refine ⟨padRight e.name 20 ++ "  " ++
        String.mk (List.replicate (10 - (format_size e.size).length) ' '),
      " size  modified: " ++ (padRight (ft e.modified) 15 ++
        (" attributes: " ++ parse_attributes os e.attr)), ?_⟩
    simp [format_one, hL, hH, padLeft, String.append_assoc]

/-- Witness for `C9_format_modes`: a single `test.txt` entry of 2048
bytes, compact and long mode. -/
theorem C9_format_modes_witness :
    format_entries "linux" [⟨"test.txt", 0, 2048, 0⟩]
        ⟨false, false, false, false, false, false, false⟩ (fun _ => "Jan 01 00:00")
      = List.map (fun f => f.name) [(⟨"test.txt", 0, 2048, 0⟩ : Entry)] ∧
    ∃ p q, format_one "linux" (fun _ => "Jan 01 00:00")
        ⟨false, false, false, false, false, true, true⟩ ⟨"test.txt", 0, 2048, 0⟩
      = p ++ (format_size 2048 ++ q) := by
  have h := C9_format_modes "linux" (fun _ => "Jan 01 00:00") [⟨"test.txt", 0, 2048, 0⟩]
    ⟨false, false, false, false, false, false, false⟩
    ⟨false, false, false, false, false, true, true⟩ ⟨"test.txt", 0, 2048, 0⟩ rfl rfl rfl
  exact h

/-- **C1** (counterexample).  The claim says a failed metadata read is
reported per-entry and collection continues, still returning the readable
entries of the same path.  In the code the `?` after `with_context`
propagates the failure out of `collect_entries`: the whole path's
collection aborts, no warning is recorded for the entry, and the readable
entry `b` is not returned. -/
theorem C1_counterexample :
    collect_entries "linux"
        [WalkItem.ok "d/a" "a" false (Except.error "boom"),
         WalkItem.ok "d/b" "b" false (Except.ok ⟨420, 0, Except.ok 10, 5⟩)]
      = ([], Except.error "Failed to read metadata for d/a") := by
  decide

/-- **C1** (amended).  A failed metadata read (or modified-time read)
aborts the whole path's collection with an error identifying the failed
path, and no entry list is returned for that path; only walker iteration
errors (`WalkItem.err`) are reported as per-entry warnings and skipped,
with collection continuing for the remaining entries. -/
theorem C1_error_handling_amended (os path fileName m : String) (isDir : Bool)
    (meta : MetaData) (rest : List WalkItem) :
    collect_entries os (WalkItem.ok path fileName isDir (Except.error m) :: rest)
      = ([], Except.error ("Failed to read metadata for " ++ path)) ∧
    (meta.modified = Except.error m →
      collect_entries os (WalkItem.ok path fileName isDir (Except.ok meta) :: rest)
        = ([], Except.error ("Failed to get modified time for " ++ path))) ∧
    collect_entries os (WalkItem.err m :: rest)
      = (("Warning: " ++ m) :: (collect_entries os rest).1, (collect_entries os rest).2) := by
  refine ⟨rfl, fun h => ?_, rfl⟩
  simp [collect_entries, h]

/-- Witness for `C1_error_handling_amended`. -/
theorem C1_error_handling_amended_witness :
    collect_entries "linux" [WalkItem.ok "p" "n" false (Except.error "x")]
      = ([], Except.error ("Failed to read metadata for " ++ "p")) ∧
    collect_entries "linux" [WalkItem.ok "p" "n" false (Except.ok ⟨0, 0, Except.error "x", 0⟩)]
      = ([], Except.error ("Failed to get modified time for " ++ "p")) ∧
    collect_entries "linux" [WalkItem.err "x"]
      = (("Warning: " ++ "x") :: (collect_entries "linux" []).1,
          (collect_entries "linux" []).2) := by
  have h := C1_error_handling_amended "linux" "p" "n" "x" false ⟨0, 0, Except.error "x", 0⟩ []
  exact ⟨h.1, h.2.1 rfl, h.2.2⟩

/-- **C2** (counterexample).  The claim says an error aborting one path's
run does not stop processing of the remaining requested paths.  In the
code, `collect_entries(path, &arg).with_context(..)?` in `main`'s loop
returns from `main` at the first failing path: `p2` gets neither header
nor listing. -/
theorem C2_counterexample :
    main_loop "linux" (fun _ => "Jan 01 00:00")
        ⟨false, false, false, false, false, false, false⟩
        [("p1", [WalkItem.ok "p1/a" "a" false (Except.error "boom")]),
         ("p2", [WalkItem.ok "p2/b" "b" false (Except.ok ⟨420, 0, Except.ok 10, 5⟩)])]
      = ⟨["p1:"], [], Except.error "Failed to read directory: p1"⟩ ∧
    "p2:" ∉ (main_loop "linux" (fun _ => "Jan 01 00:00")
        ⟨false, false, false, false, false, false, false⟩
        [("p1", [WalkItem.ok "p1/a" "a" false (Except.error "boom")]),
         ("p2", [WalkItem.ok "p2/b" "b" false (Except.ok ⟨420, 0, Except.ok 10, 5⟩)])]).stdout := by
  decide

/-- **C2** (amended).  Output already produced for prior paths is
preserved — a successfully processed path contributes its header, its
listing line and a blank line regardless of what happens later — but a
path whose collection fails prints only its header and makes `main`
return the error at once: no later requested path is processed. -/
theorem C2_abort_amended (os : String) (ft : Nat → String) (arg : Arg)
    (p₁ p₂ e : String) (items₁ items₂ : List WalkItem) (entries : List Entry)
    (rest₁ rest₂ : List (String × List WalkItem)) :
    ((collect_entries os items₁).2 = Except.error e →
      main_loop os ft arg ((p₁, items₁) :: rest₁)
        = ⟨[p₁ ++ ":"], (collect_entries os items₁).1,
            Except.error ("Failed to read directory: " ++ p₁)⟩) ∧
    ((collect_entries os items₂).2 = Except.ok entries →
      main_loop os ft arg ((p₂, items₂) :: rest₂)
        = ⟨(p₂ ++ ":") ::
             String.intercalate (if arg.long_format then "\n" else " ")
               (format_entries os (sort_entries (should_display os entries arg) arg) arg ft) ::
             "" :: (main_loop os ft arg rest₂).stdout,
           (collect_entries os items₂).1 ++ (main_loop os ft arg rest₂).stderr,
           (main_loop os ft arg rest₂).result⟩) := by
  constructor
  · intro h
    simp [main_loop, h]
  · intro h
    simp [main_loop, h]

/-- Witness for `C2_abort_amended`: a failing path and a successful path,
each followed by further requested paths. -/
theorem C2_abort_amended_witness :
    main_loop "linux" (fun _ => "Jan 01 00:00")
        ⟨false, false, false, false, false, false, false⟩
        [("p1", [WalkItem.ok "p1/a" "a" false (Except.error "boom")]), ("q", [])]
      = ⟨["p1" ++ ":"],
          (collect_entries "linux" [WalkItem.ok "p1/a" "a" false (Except.error "boom")]).1,
          Except.error ("Failed to read directory: " ++ "p1")⟩ ∧
    main_loop "linux" (fun _ => "Jan 01 00:00")
        ⟨false, false, false, false, false, false, false⟩
        [("p2", [WalkItem.ok "p2/b" "b" false (Except.ok ⟨420, 0, Except.ok 10, 5⟩)]), ("q", [])]
      = ⟨("p2" ++ ":") ::
           String.intercalate
             (if (⟨false, false, false, false, false, false, false⟩ : Arg).long_format
              then "\n" else " ")
             (format_entries "linux"
               (sort_entries
                 (should_display "linux" [⟨"b", 10, 5, 0⟩]
                   ⟨false, false, false, false, false, false, false⟩)
                 ⟨false, false, false, false, false, false, false⟩)
               ⟨false, false, false, false, false, false, false⟩ (fun _ => "Jan 01 00:00")) ::
           "" :: (main_loop "linux" (fun _ => "Jan 01 00:00")
                   ⟨false, false, false, false, false, false, false⟩ [("q", [])]).stdout,
         (collect_entries "linux"
             [WalkItem.ok "p2/b" "b" false (Except.ok ⟨420, 0, Except.ok 10, 5⟩)]).1 ++
           (main_loop "linux" (fun _ => "Jan 01 00:00")
             ⟨false, false, false, false, false, false, false⟩ [("q", [])]).stderr,
         (main_loop "linux" (fun _ => "Jan 01 00:00")
           ⟨false, false, false, false, false, false, false⟩ [("q", [])]).result⟩ := by
  have h := C2_abort_amended "linux" (fun _ => "Jan 01 00:00")
    ⟨false, false, false, false, false, false, false⟩
    "p1" "p2" "Failed to read metadata for p1/a"
    [WalkItem.ok "p1/a" "a" false (Except.error "boom")]
    [WalkItem.ok "p2/b" "b" false (Except.ok ⟨420, 0, Except.ok 10, 5⟩)]
    [⟨"b", 10, 5, 0⟩] [("q", [])] [("q", [])]
  exact ⟨h.1 rfl, h.2 rfl⟩

end DirLister
